import Mathlib

/-!
# Verification of the waktu-iban-bulan reconciliation core

A shallow embedding of the data-reconciliation and countdown logic of the
prayer-times application: the time normalizer (`formatTime`), the retrying
HTTP client (`fetchWithRetry`), the Hijri year resolver (`findRamadanYear`),
the Ramadan window fetcher (`getRamadanCalendar`), the cross-verifier
(`verifyRamadanDates`), the next-prayer countdown engine (`updateNextPrayer`,
`TodayPrayers.tsx`), and the Ramadan-day enrichment loop
(`RamadanCalendar.fetchCalendar`).

Strings are modelled as `List Char`.  Network providers are modelled as
oracle functions returning `Except String _` (an `Except.error` models a
thrown exception/rejected promise).  JavaScript number coercions are
modelled on the fragment of inputs that actually occurs in this program
(digit strings, blanks, and clearly non-numeric strings).
-/

namespace Waktu

/-- Characters that JavaScript treats as trimmable whitespace; modelled by
`Char.isWhitespace`. -/
def jsWhitespace (c : Char) : Bool := c.isWhitespace

/-- Model of JavaScript `String.prototype.trim`: strip whitespace from both
ends. -/
def jsTrim (s : List Char) : List Char :=
  ((s.dropWhile jsWhitespace).reverse.dropWhile jsWhitespace).reverse

/-- Model of JavaScript `String.prototype.split` with a single-character
separator: all occurrences split, empty pieces kept, `[""]` on empty
input. -/
def jsSplit (sep : Char) : List Char → List (List Char)
  | [] => [[]]
  | c :: cs =>
    if c = sep then [] :: jsSplit sep cs
    else
      match jsSplit sep cs with
      | [] => [[c]]
      | p :: ps => (c :: p) :: ps

/-- Numeric value of a decimal digit string, most-significant first (the
fold JavaScript effectively performs when coercing a digit string). -/
def digitsToNat (l : List Char) : Nat :=
  l.foldl (fun a c => 10 * a + (c.toNat - 48)) 0

/-- Model of JavaScript `Number(string)` on the fragment used by this
program: a blank (or empty) string coerces to `0`, a plain decimal digit
string to its value, and anything else in this fragment is `NaN`
(modelled as `none`).  Signed, fractional, exponent, hexadecimal and
`Infinity` forms never reach these call sites and are outside the model;
theorems that exercise the `NaN` path restrict inputs to strings containing
a `nonNumericChar`, which JavaScript also maps to `NaN`. -/
def jsNumber (s : List Char) : Option Nat :=
  let t := jsTrim s
  if t = [] then some 0
  else if t.all Char.isDigit then some (digitsToNat t) else none

/-- Letters that can never occur in any string accepted by JavaScript
`Number` (they appear in no decimal, hexadecimal, exponent or `Infinity`
form), so a string containing one of them always coerces to `NaN`. -/
def nonNumericChar (c : Char) : Bool :=
  c ∈ (['g', 'h', 'j', 'k', 'l', 'm', 'p', 'q', 'r', 's', 'u', 'v', 'w', 'z',
        'G', 'H', 'J', 'K', 'L', 'M', 'P', 'Q', 'R', 'S', 'U', 'V', 'W', 'Z'] : List Char)

/-- Little-endian decimal digits of `n`, with enough fuel to terminate
structurally (so that concrete renderings evaluate inside the kernel). -/
def natRenderLoop : Nat → Nat → List Char
  | 0, _ => []
  | fuel + 1, n =>
    if n = 0 then [] else Nat.digitChar (n % 10) :: natRenderLoop fuel (n / 10)

/-- Decimal rendering of a natural number (JavaScript
`Number.prototype.toString` for the non-negative integers used here). -/
def natRender (n : Nat) : List Char :=
  if n = 0 then ['0'] else (natRenderLoop n n).reverse

/-- Model of `n.toString().padStart(2, '0')`. -/
def pad2 (n : Nat) : List Char :=
  let s := natRender n
  if s.length < 2 then '0' :: s else s

/-- Model of `String.prototype.toUpperCase` (ASCII fragment). -/
def jsToUpper (s : List Char) : List Char := s.map Char.toUpper

/-- Time Normalizer, from `formatTime` in `src/src/app/utils/api.ts`
(lines 1036–1074): empty/blank input yields the empty string; a string
with a `:` and no space is treated as already 24-hour and re-padded
(empty on unparseable components); otherwise the string is split on a
space into a time part and a meridiem marker (empty if either is missing),
the hour/minute are parsed (empty if either is `NaN`), the 12-hour rule is
applied (PM adds 12 unless the hour is 12, AM maps hour 12 to 0), and both
fields are zero-padded.  The variant at lines 90–94 merely strips a
trailing meridiem; the detailed variant is the one the specification
describes and is the one embedded here. -/
def formatTime (time : List Char) : List Char :=
  if jsTrim time = [] then []
  else if time.contains ':' && !(time.contains ' ') then
    let parts := jsSplit ':' time
    match jsNumber (parts.headD []), (parts.get? 1).bind jsNumber with
    | some hours, some minutes => pad2 hours ++ ':' :: pad2 minutes
    | _, _ => []
  else
    let ws := jsSplit ' ' time
    let timeStr := ws.headD []
    let period := (ws.get? 1).getD []
    if timeStr = [] ∨ period = [] then []
    else
      let tparts := jsSplit ':' timeStr
      match jsNumber (tparts.headD []), (tparts.get? 1).bind jsNumber with
      | some hours, some minutes =>
        let hour :=
          if jsToUpper period = ['P', 'M'] ∧ hours ≠ 12 then hours + 12
          else if jsToUpper period = ['A', 'M'] ∧ hours = 12 then 0
          else hours
        pad2 hour ++ ':' :: pad2 minutes
      | _, _ => []

/-! ## Retrying HTTP client (`fetchWithRetry`, api.ts lines 71–88) -/

/-- Observable outcome of one `fetchWithRetry` call: the returned payload or
thrown error, the number of attempts actually made, and the trace of
inter-attempt delays (in milliseconds). -/
structure FetchOutcome (α : Type) where
  result : Except String α
  attempts : Nat
  delays : List Nat

/-- The `for (let i = 0; i < retries; i++)` loop of `fetchWithRetry`:
`attempt i` is the outcome the HTTP layer (`axios.get`) produces for the
i-th attempt, `i` the loop counter and `remaining = retries - i` the
iterations left.  On failure with attempts remaining the loop sleeps
1000 ms and retries; the failure of the final attempt is rethrown. -/
def fetchWithRetryGo (attempt : Nat → Except String α) (i : Nat) :
    Nat → FetchOutcome α
  | 0 => ⟨.error "Maximum retries reached", 0, []⟩
  | remaining + 1 =>
    match attempt i with
    | .ok v => ⟨.ok v, 1, []⟩
    | .error e =>
      if remaining = 0 then ⟨.error e, 1, []⟩
      else
        let r := fetchWithRetryGo attempt (i + 1) remaining
        ⟨r.result, r.attempts + 1, 1000 :: r.delays⟩

/-- `fetchWithRetry(url, params, retries = 3)` from api.ts: the url/params
are absorbed into the attempt oracle. -/
def fetchWithRetry (attempt : Nat → Except String α) (retries : Nat := 3) :
    FetchOutcome α :=
  fetchWithRetryGo attempt 0 retries

/-! ## Hijri year resolver (`findRamadanYear`, api.ts lines 97–113) -/

/-- The `hijri` payload of the gToH conversion response (`data.hijri`);
only the `year` field is consumed. -/
structure HijriPayload where
  year : List Char
  deriving Repr, DecidableEq

/-- The `data` field of the gToH conversion response. -/
structure GToHData where
  hijri : Option HijriPayload
  deriving Repr, DecidableEq

/-- A gToH conversion response: a status `code` and an optional `data`
object (absent `data`/`hijri` models a response missing those fields). -/
structure GToHResponse where
  code : Int
  data : Option GToHData
  deriving Repr, DecidableEq

/-- Model of JavaScript `parseInt` on the non-negative fragment occurring
here: trim, then read a leading run of decimal digits; `NaN` (`none`) when
there is none.  Sign, radix prefixes and non-decimal digits do not occur
in the year strings this program parses. -/
def jsParseInt (s : List Char) : Option Int :=
  let ds := (jsTrim s).takeWhile Char.isDigit
  if ds = [] then none else some (digitsToNat ds : Int)

/-- The arithmetic fallback `Math.floor(g - 622 + (g - 622) / 32.5)`; the
IEEE arithmetic is modelled exactly over `ℚ` (the values involved are far
inside the range where the two agree). -/
def fallbackHijriYear (g : Int) : Int :=
  Int.floor ((g - 622 : ℚ) + (g - 622 : ℚ) / 32.5)

/-- Hijri Year Resolver `findRamadanYear(gregorianYear)`: the gToH call for
March 1 is modelled by its outcome `resp` (`Except.error` = the request
threw after retries).  A response with `code == 200` and a `hijri` payload
yields `parseInt` of its year (`none` = `NaN`); every other outcome —
including the `throw new Error('Failed to convert date')` — lands in the
`catch` and yields the approximation, so the resolver itself never
throws. -/
def findRamadanYear (g : Int) (resp : Except String GToHResponse) :
    Option Int :=
  match resp with
  | .error _ => some (fallbackHijriYear g)
  | .ok r =>
    match r.data with
    | none => some (fallbackHijriYear g)
    | some d =>
      match d.hijri with
      | none => some (fallbackHijriYear g)
      | some h => if r.code = 200 then jsParseInt h.year else some (fallbackHijriYear g)

/-! ## Calendar data model (api.ts / `types.ts`) -/

/-- The Gregorian half of a calendar day, with the fields the program
copies (`date`, `format`, `day`, `weekday.en`, `month.number`, `month.en`,
`year`).  `designation` is carried opaquely as its two strings. -/
structure GregorianInfo where
  date : List Char
  day : List Char
  weekdayEn : List Char
  monthNumber : Int
  monthEn : List Char
  year : List Char
  deriving Repr, DecidableEq

/-- The Hijri half of a calendar day with the copied fields. -/
structure HijriInfo where
  date : List Char
  day : List Char
  weekdayEn : List Char
  monthNumber : Int
  monthEn : List Char
  year : List Char
  holidays : List (List Char)
  deriving Repr, DecidableEq

/-- A validated Calendar Day: both halves present. -/
structure CalendarDay where
  gregorian : GregorianInfo
  hijri : HijriInfo
  deriving Repr, DecidableEq

/-- A raw provider day before `isValidCalendarDay` filtering: either half
may be structurally missing (`null`/non-object). -/
structure RawCalendarDay where
  gregorian : Option GregorianInfo
  hijri : Option HijriInfo
  deriving Repr, DecidableEq

/-- `isValidCalendarDay` (api.ts lines 59–68): both sub-objects present. -/
def isValidCalendarDay (d : RawCalendarDay) : Bool :=
  d.gregorian.isSome && d.hijri.isSome

/-- The `filter(isValidCalendarDay).map(copy fields)` step of
`getRamadanCalendar`: structurally invalid days are dropped, valid ones
are rebuilt field by field (the rebuild is the identity on this model). -/
def validDays (raws : List RawCalendarDay) : List CalendarDay :=
  raws.filterMap fun r =>
    match r.gregorian, r.hijri with
    | some g, some h => some ⟨g, h⟩
    | _, _ => none

/-- A `hijriCalendar` provider response: status `code`, and `data` when it
is an array (`none` models a missing or non-array `data` field). -/
structure HijriCalResponse where
  code : Int
  data : Option (List RawCalendarDay)
  deriving Repr, DecidableEq

/-- The year filter of `getRamadanCalendar`: keep the valid days whose
Gregorian `year` string equals the requested year rendered in decimal
(string comparison `day.gregorian.year === gregorianYear.toString()`). -/
def matchingDaysOf (g : Int) (raws : List RawCalendarDay) : List CalendarDay :=
  (validDays raws).filter fun d => d.gregorian.year = (toString g).toList

/-- What one candidate Hijri year contributes in `getRamadanCalendar`:
`some days` when the response has `code == 200`, an array `data`, and at
least 29 matching days (the `break` case); `none` when the candidate is
passed over. -/
def acceptedDays (g : Int) (resp : HijriCalResponse) : Option (List CalendarDay) :=
  match resp.data with
  | none => none
  | some raws =>
    if resp.code = 200 then
      if 29 ≤ (matchingDaysOf g raws).length then some (matchingDaysOf g raws)
      else none
    else none

/-- The `for (const year of yearsToTry)` loop of `getRamadanCalendar`:
walk the candidate years in order; a provider throw propagates (first
component) having consumed the years queried so far (second component);
an accepted candidate stops the search. -/
def searchCandidates (g : Int) (provider : Int → Except String HijriCalResponse) :
    List Int → Except String (List CalendarDay) × List Int
  | [] => (.ok [], [])
  | y :: ys =>
    match provider y with
    | .error e => (.error e, [y])
    | .ok resp =>
      match acceptedDays g resp with
      | some days => (.ok days, [y])
      | none =>
        let r := searchCandidates g provider ys
        (r.1, y :: r.2)

/-- The candidate Hijri years `[hijriYear - 1, hijriYear, hijriYear + 1]`
tried by `getRamadanCalendar`, in order. -/
def candidateYears (hijriYear : Int) : List Int :=
  [hijriYear - 1, hijriYear, hijriYear + 1]

/-- The generic error message produced by the `catch` block of
`getRamadanCalendar` for every failure, provider throw or otherwise. -/
def ramadanGenericError : List Char :=
  "Failed to fetch Ramadan calendar. Please try again later.".toList

/-- The domain error thrown (inside the `try`) when no candidate was
accepted. -/
def noRamadanDaysError (g : Int) : List Char :=
  ("No Ramadan days found for year " ++ toString g).toList

/-- The body of the `try` block of `getRamadanCalendar` (api.ts lines
154–229): resolve candidates, search them, and throw the domain error when
the search produced nothing.  `hijriYear` is the value `findRamadanYear`
resolved; `provider` gives the outcome of the `hijriCalendar` fetch for
each queried Hijri year (adjustment and location are fixed per call and
absorbed into it).  Also returns the trace of queried years. -/
def getRamadanCalendarTry (g : Int) (hijriYear : Int)
    (provider : Int → Except String HijriCalResponse) :
    Except (List Char) (List CalendarDay) × List Int :=
  match searchCandidates g provider (candidateYears hijriYear) with
  | (.error e, tr) => (.error e.toList, tr)
  | (.ok days, tr) =>
    if days.length = 0 then (.error (noRamadanDaysError g), tr)
    else (.ok days, tr)

/-- Ramadan Window Fetcher `getRamadanCalendar(gregorianYear, adjustment)`
with its outer `catch`: any error raised inside the `try` — a provider
throw or the internal "No Ramadan days found" — is caught, logged, and
replaced by the one generic error. Returns the result together with the
trace of candidate Hijri years actually queried. -/
def getRamadanCalendarT (g : Int) (hijriYear : Int)
    (provider : Int → Except String HijriCalResponse) :
    Except (List Char) (List CalendarDay) × List Int :=
  match getRamadanCalendarTry g hijriYear provider with
  | (.ok days, tr) => (.ok days, tr)
  | (.error _, tr) => (.error ramadanGenericError, tr)

/-- The result of `getRamadanCalendar` as its caller sees it (trace
dropped); on success the `data` field of the returned
`{code: 200, status: 'OK', data: ramadanDays}` object. -/
def getRamadanCalendar (g : Int) (hijriYear : Int)
    (provider : Int → Except String HijriCalResponse) :
    Except (List Char) (List CalendarDay) :=
  (getRamadanCalendarT g hijriYear provider).1

/-! ## Cross-verifier (`verifyRamadanDates`, api.ts lines 324–347) -/

/-- The `data` field of a `CalendarApiResponse` per `types.ts`: either an
array of days or a single day (`Array.isArray` distinguishes them). -/
inductive CalendarData where
  | array : List CalendarDay → CalendarData
  | single : CalendarDay → CalendarData
  deriving Repr, DecidableEq

/-- A `CalendarApiResponse` as consumed by `verifyRamadanDates`. -/
structure CalendarApiResponse where
  code : Int
  status : List Char
  data : CalendarData
  deriving Repr, DecidableEq

/-- The `VerificationResult` record. -/
structure VerificationResult where
  datesMatch : Bool
  primaryDates : Option CalendarApiResponse
  secondaryDates : Option CalendarApiResponse
  deriving Repr, DecidableEq

/-- Cross-Verifier `verifyRamadanDates(year)`: the two concurrent
`getRamadanCalendar` calls (default adjustment, default+1) are modelled by
their outcomes.  If either rejects, `Promise.all` rejects and the `catch`
yields `{datesMatch: false}`; if the primary `data` is not an array the
internal throw is caught the same way; otherwise `datesMatch` is whether
the primary day count is 29 or 30, returned with both raw results. -/
def verifyRamadanDates
    (primary secondary : Except (List Char) CalendarApiResponse) :
    VerificationResult :=
  match primary, secondary with
  | .ok p, .ok s =>
    match p.data with
    | .array days =>
      ⟨days.length = 29 ∨ days.length = 30, some p, some s⟩
    | .single _ => ⟨false, none, none⟩
  | _, _ => ⟨false, none, none⟩

/-! ## Countdown engine (`updateNextPrayer`, TodayPrayers.tsx lines 40–107) -/

/-- The `PrayerTimes` record held by the component (`types.ts`): the five
prayer time strings (Sunrise is not part of it). -/
structure PrayerTimes where
  fajr : List Char
  dhuhr : List Char
  asr : List Char
  maghrib : List Char
  isha : List Char
  deriving Repr, DecidableEq

/-- Model of date-fns `parse(s, 'yyyy-MM-dd HH:mm', ...)` restricted to the
time-of-day part: one or two decimal digits for the hour (value 0–23), one
or two for the minute (value 0–59), joined by `:`; anything else yields an
invalid date (`none`).  The date part is supplied by the component itself
(`format(now, 'yyyy-MM-dd')`) and always parses. -/
def parseHM (t : List Char) : Option (Nat × Nat) :=
  match jsSplit ':' t with
  | [hs, ms] =>
    if hs ≠ [] ∧ hs.length ≤ 2 ∧ hs.all Char.isDigit ∧
        ms ≠ [] ∧ ms.length ≤ 2 ∧ ms.all Char.isDigit then
      if digitsToNat hs ≤ 23 ∧ digitsToNat ms ≤ 59 then
        some (digitsToNat hs, digitsToNat ms)
      else none
    else none
  | _ => none

/-- Instant (in ms since today's midnight) denoted by a prayer-time string
parsed onto the current day. -/
def timeToMsToday (t : List Char) : Option Int :=
  (parseHM t).map fun p => ((p.1 * 60 + p.2) * 60000 : Int)

/-- The `prayers` array of `updateNextPrayer`, in canonical order (Sunrise
excluded). -/
def prayersOf (t : PrayerTimes) : List (String × List Char) :=
  [("Fajr", t.fajr), ("Dhuhr", t.dhuhr), ("Asr", t.asr),
   ("Maghrib", t.maghrib), ("Isha", t.isha)]

/-- The selection loop of `updateNextPrayer`: skip empty times
(`if (!prayer.time) continue`); an unparseable time yields an invalid date
whose comparison with `now` is false, so it is also passed over; the first
entry with `prayerDateTime > now` is selected and the loop breaks. -/
def findNext (now : Int) : List (String × List Char) → Option (String × Int)
  | [] => none
  | (n, s) :: rest =>
    if s = [] then findNext now rest
    else
      match timeToMsToday s with
      | some target => if now < target then some (n, target) else findNext now rest
      | none => findNext now rest

/-- The countdown decomposition of `updateNextPrayer` (lines 97–100), in
milliseconds: `Math.floor(diff/3600000)`, `Math.floor((diff % 3600000)/60000)`,
`Math.floor((diff % 60000)/1000)`.  JavaScript `%` truncates toward zero
(`Int.tmod`) and `Math.floor` of a real quotient is `Int.fdiv`. -/
def decomposeMs (diff : Int) : Int × Int × Int :=
  (Int.fdiv diff 3600000,
   Int.fdiv (Int.tmod diff 3600000) 60000,
   Int.fdiv (Int.tmod diff 60000) 1000)

/-- What one run of `updateNextPrayer` publishes: the next prayer's name
and the decomposed remaining duration; `duration = none` models the
`NaN:NaN:NaN` countdown arising when tomorrow's Fajr string is non-empty
but unparseable. -/
structure CountdownState where
  name : String
  duration : Option (Int × Int × Int)
  deriving Repr, DecidableEq

/-- One run of `updateNextPrayer` at instant `now` (ms since today's
midnight): select today's next prayer; otherwise, when Fajr is non-empty,
roll over to tomorrow's Fajr (today's midnight + 86400000 ms + its
time-of-day); publish nothing (`none`) when no target was found. -/
def updateNextPrayer (t : PrayerTimes) (now : Int) : Option CountdownState :=
  match findNext now (prayersOf t) with
  | some (n, target) => some ⟨n, some (decomposeMs (target - now))⟩
  | none =>
    if t.fajr ≠ [] then
      match timeToMsToday t.fajr with
      | some f => some ⟨"Fajr", some (decomposeMs (86400000 + f - now))⟩
      | none => some ⟨"Fajr", none⟩
    else none

/-- The prayers of the canonical list whose non-empty time parses, paired
with their timestamp (ms) on the current day. -/
def parsedEntries (t : PrayerTimes) : List (String × Int) :=
  (prayersOf t).filterMap fun p =>
    if p.2 ≠ [] then (timeToMsToday p.2).map fun v => (p.1, v) else none

/-- Spec-side next-event rule, written from the claim: among the prayers in
canonical order whose non-empty time parses to a timestamp on the current
day, the first one strictly after `now`; if none qualifies and Fajr has a
value, Fajr at the following day's date. -/
def specNextEvent (t : PrayerTimes) (now : Int) : Option (String × Int) :=
  match (parsedEntries t).find? fun p => now < p.2 with
  | some p => some p
  | none =>
    if t.fajr ≠ [] then (timeToMsToday t.fajr).map fun v => ("Fajr", 86400000 + v)
    else none

/-! ## Ramadan-day enrichment (`RamadanCalendar.fetchCalendar`) -/

/-- A `RamadanDay` as built by the calendar page (`types.ts` /
`RamadanCalendar.fetchCalendar`). -/
structure RamadanDay where
  date : List Char
  hijriDate : List Char
  gregorianDate : List Char
  dayOfWeek : List Char
  ramadanDay : Nat
  isFirstDay : Bool
  isLailatulQadr : Bool
  prayerTimes : PrayerTimes
  deriving Repr, DecidableEq

/-- The Night-of-Power ordinals `[21, 23, 25, 27, 29]`. -/
def lailatulQadrDays : List Nat := [21, 23, 25, 27, 29]

/-- The record pushed for the day at 0-based position `i` of the fetched
window (`fetchCalendar`, the `formattedDays.push` literal): ordinal
`i + 1`, first-day flag `i === 0`, Night-of-Power flag
`[21,23,25,27,29].includes(i + 1)`, and the fetched timings. -/
def formatRamadanDay (i : Nat) (day : CalendarDay) (t : PrayerTimes) :
    RamadanDay where
  date := day.gregorian.date
  hijriDate := day.hijri.day ++ ' ' :: day.hijri.monthEn ++ ' ' :: day.hijri.year
  gregorianDate := day.gregorian.day ++ ' ' :: day.gregorian.monthEn
  dayOfWeek := day.gregorian.weekdayEn
  ramadanDay := i + 1
  isFirstDay := i = 0
  isLailatulQadr := (i + 1) ∈ lailatulQadrDays
  prayerTimes := t

/-- The `for (let i = 0; ...)` loop of `fetchCalendar`: `fetch` is the
outcome of `getPrayerTimes` for a day (a throw skips the day, the index
still advances with the window position). -/
def processDaysGo (fetch : CalendarDay → Except String PrayerTimes) :
    Nat → List CalendarDay → List RamadanDay
  | _, [] => []
  | i, d :: rest =>
    match fetch d with
    | .ok t => formatRamadanDay i d t :: processDaysGo fetch (i + 1) rest
    | .error _ => processDaysGo fetch (i + 1) rest

/-- The enrichment of a whole fetched Ramadan window. -/
def processDays (fetch : CalendarDay → Except String PrayerTimes)
    (days : List CalendarDay) : List RamadanDay :=
  processDaysGo fetch 0 days

/-! ## Helper lemmas -/

theorem mem_dropWhile_of_mem {p : Char → Bool} {l : List Char} {c : Char}
    (hc : c ∈ l) (hpc : p c = false) : c ∈ l.dropWhile p := by
  induction l with
  | nil => cases hc
  | cons x xs ih =>
    rw [List.dropWhile_cons]
    by_cases hx : p x = true
    · rcases List.mem_cons.mp hc with rfl | hmem
      · rw [hpc] at hx; cases hx
      · simp [hx, ih hmem]
    · simp only [Bool.not_eq_true] at hx
      simp [hx, hc]

theorem mem_jsTrim_of_mem {l : List Char} {c : Char}
    (hc : c ∈ l) (hws : jsWhitespace c = false) : c ∈ jsTrim l := by
  unfold jsTrim
  rw [List.mem_reverse]
  exact mem_dropWhile_of_mem (by rw [List.mem_reverse]; exact mem_dropWhile_of_mem hc hws) hws

theorem jsTrim_ne_nil {l : List Char} {c : Char}
    (hc : c ∈ l) (hws : jsWhitespace c = false) : jsTrim l ≠ [] :=
  List.ne_nil_of_mem (mem_jsTrim_of_mem hc hws)

theorem dropWhile_eq_self_of_all {p : Char → Bool} {l : List Char}
    (h : ∀ c ∈ l, p c = false) : l.dropWhile p = l := by
  cases l with
  | nil => rfl
  | cons x xs => simp [List.dropWhile_cons, h x (List.mem_cons_self x xs)]

theorem jsTrim_eq_self {l : List Char}
    (h : ∀ c ∈ l, jsWhitespace c = false) : jsTrim l = l := by
  unfold jsTrim
  rw [dropWhile_eq_self_of_all h,
    dropWhile_eq_self_of_all (fun c hc => h c (List.mem_reverse.mp hc)),
    List.reverse_reverse]

theorem jsSplit_of_sepFree {sep : Char} {l : List Char}
    (h : ∀ c ∈ l, c ≠ sep) : jsSplit sep l = [l] := by
  induction l with
  | nil => rfl
  | cons x xs ih =>
    rw [jsSplit, if_neg (h x (List.mem_cons_self x xs)),
      ih (fun c hc => h c (List.mem_cons_of_mem x hc))]

theorem jsSplit_append {sep : Char} {xs ys : List Char}
    (h : ∀ c ∈ xs, c ≠ sep) :
    jsSplit sep (xs ++ sep :: ys) = xs :: jsSplit sep ys := by
  induction xs with
  | nil => simp [jsSplit]
  | cons x xs ih =>
    rw [List.cons_append, jsSplit, if_neg (h x (List.mem_cons_self x xs)),
      ih (fun c hc => h c (List.mem_cons_of_mem x hc))]

theorem contains_eq_true_of_mem {l : List Char} {c : Char} (h : c ∈ l) :
    l.contains c = true := List.elem_eq_true_of_mem h

theorem contains_eq_false_of_all {l : List Char} {c : Char}
    (h : ∀ x ∈ l, x ≠ c) : l.contains c = false := by
  rcases hl : l.contains c with _ | _
  · rfl
  · exact absurd (List.mem_of_elem_eq_true hl) (fun hm => h c hm rfl)

theorem isDigit_not_ws {c : Char} (h : c.isDigit = true) :
    jsWhitespace c = false := by
  rcases hw : jsWhitespace c with _ | _
  · rfl
  · unfold jsWhitespace Char.isWhitespace at hw
    simp only [Bool.or_eq_true, decide_eq_true_eq] at hw
    rcases hw with ((rfl | rfl) | rfl) | rfl <;> cases h

theorem isDigit_ne_colon {c : Char} (h : c.isDigit = true) : c ≠ ':' := by
  intro hc; subst hc; cases h

theorem isDigit_ne_space {c : Char} (h : c.isDigit = true) : c ≠ ' ' := by
  intro hc; subst hc; cases h

theorem digitChar_isDigit : ∀ d : Nat, d < 10 → (Nat.digitChar d).isDigit = true := by
  decide

theorem digitChar_val : ∀ d : Nat, d < 10 → (Nat.digitChar d).toNat - 48 = d := by
  decide

theorem natRenderLoop_eq_digits :
    ∀ fuel n : Nat, n ≤ fuel →
      natRenderLoop fuel n = (Nat.digits 10 n).map Nat.digitChar := by
  intro fuel
  induction fuel with
  | zero =>
    intro n hn
    interval_cases n
    simp [natRenderLoop]
  | succ fuel ih =>
    intro n hn
    by_cases h0 : n = 0
    · subst h0
      simp [natRenderLoop]
    · have hlt : n / 10 < n := Nat.div_lt_self (Nat.pos_of_ne_zero h0) (by norm_num)
      rw [natRenderLoop, if_neg h0, ih (n / 10) (by omega),
        Nat.digits_def' (b := 10) (by norm_num) (Nat.pos_of_ne_zero h0),
        List.map_cons]

theorem natRender_eq (n : Nat) :
    natRender n =
      if n = 0 then ['0'] else ((Nat.digits 10 n).map Nat.digitChar).reverse := by
  unfold natRender
  by_cases h0 : n = 0
  · rw [if_pos h0, if_pos h0]
  · rw [if_neg h0, if_neg h0, natRenderLoop_eq_digits n n le_rfl]

theorem natRender_ne_nil (n : Nat) : natRender n ≠ [] := by
  rw [natRender_eq]
  split
  · simp
  · rename_i h
    have hd : Nat.digits 10 n ≠ [] := Nat.digits_ne_nil_iff_ne_zero.mpr h
    simp [hd]

theorem natRender_all_digit (n : Nat) : ∀ c ∈ natRender n, c.isDigit = true := by
  intro c hc
  rw [natRender_eq] at hc
  split at hc
  · rcases List.mem_singleton.mp hc with rfl; rfl
  · rw [List.mem_reverse, List.mem_map] at hc
    obtain ⟨d, hd, rfl⟩ := hc
    exact digitChar_isDigit d (Nat.digits_lt_base (by norm_num) hd)

theorem digitsToNat_append_singleton (xs : List Char) (c : Char) :
    digitsToNat (xs ++ [c]) = 10 * digitsToNat xs + (c.toNat - 48) := by
  unfold digitsToNat
  rw [List.foldl_append]
  rfl

theorem digitsToNat_digits (L : List Nat) (hL : ∀ d ∈ L, d < 10) :
    digitsToNat ((L.map Nat.digitChar).reverse) = Nat.ofDigits 10 L := by
  induction L with
  | nil => rfl
  | cons d L ih =>
    rw [List.map_cons, List.reverse_cons, digitsToNat_append_singleton,
      ih (fun x hx => hL x (List.mem_cons_of_mem d hx)),
      digitChar_val d (hL d (List.mem_cons_self d L)), Nat.ofDigits_cons]
    ring

theorem digitsToNat_natRender (n : Nat) : digitsToNat (natRender n) = n := by
  rw [natRender_eq]
  split
  · rename_i h; rw [h]; rfl
  · rw [digitsToNat_digits _ (fun d hd => Nat.digits_lt_base (by norm_num) hd),
      Nat.ofDigits_digits]

theorem pad2_all_digit (n : Nat) : ∀ c ∈ pad2 n, c.isDigit = true := by
  intro c hc
  simp only [pad2] at hc
  split at hc
  · rcases List.mem_cons.mp hc with rfl | hm
    · rfl
    · exact natRender_all_digit n c hm
  · exact natRender_all_digit n c hc

theorem pad2_ne_nil (n : Nat) : pad2 n ≠ [] := by
  simp only [pad2]
  split
  · simp
  · exact natRender_ne_nil n

theorem digitsToNat_cons_zero (l : List Char) :
    digitsToNat ('0' :: l) = digitsToNat l := rfl

theorem digitsToNat_pad2 (n : Nat) : digitsToNat (pad2 n) = n := by
  simp only [pad2]
  split
  · rw [digitsToNat_cons_zero, digitsToNat_natRender]
  · exact digitsToNat_natRender n

theorem jsNumber_of_digits {l : List Char} (hne : l ≠ [])
    (hd : ∀ c ∈ l, c.isDigit = true) : jsNumber l = some (digitsToNat l) := by
  unfold jsNumber
  rw [jsTrim_eq_self (fun c hc => isDigit_not_ws (hd c hc))]
  rw [if_neg hne, if_pos (List.all_eq_true.mpr hd)]

theorem jsNumber_natRender (n : Nat) : jsNumber (natRender n) = some n := by
  rw [jsNumber_of_digits (natRender_ne_nil n) (natRender_all_digit n),
    digitsToNat_natRender]

theorem jsNumber_pad2 (n : Nat) : jsNumber (pad2 n) = some n := by
  rw [jsNumber_of_digits (pad2_ne_nil n) (pad2_all_digit n), digitsToNat_pad2]


/-! ## C6 — retrying HTTP client -/

/-- C6: `fetchWithRetry` makes at most 3 attempts with a fixed 1000 ms
delay between consecutive attempts; it returns the payload of the first
successful attempt (after `j` failures it succeeds on attempt `j` having
made `j + 1` attempts and slept `j` times), and when all 3 attempts fail
it rethrows the final attempt's error after exactly 3 attempts. -/
theorem c6_fetchWithRetry_spec {α : Type} (f : Nat → Except String α) :
    (fetchWithRetry f).attempts ≤ 3 ∧
    (fetchWithRetry f).delays =
      List.replicate ((fetchWithRetry f).attempts - 1) 1000 ∧
    (∀ j v, j < 3 → (∀ i, i < j → ∃ e, f i = .error e) → f j = .ok v →
      fetchWithRetry f = ⟨.ok v, j + 1, List.replicate j 1000⟩) ∧
    ((∀ i, i < 3 → ∃ e, f i = .error e) →
      ∃ e, f 2 = .error e ∧ fetchWithRetry f = ⟨.error e, 3, [1000, 1000]⟩) := by
  refine ⟨?_, ?_, ?_, ?_⟩
  · rcases h0 : f 0 with e0 | v0 <;>
      rcases h1 : f 1 with e1 | v1 <;>
      rcases h2 : f 2 with e2 | v2 <;>
      simp [fetchWithRetry, fetchWithRetryGo, h0, h1, h2]
  · rcases h0 : f 0 with e0 | v0 <;>
      rcases h1 : f 1 with e1 | v1 <;>
      rcases h2 : f 2 with e2 | v2 <;>
      simp [fetchWithRetry, fetchWithRetryGo, h0, h1, h2, List.replicate]
  · intro j v hj hprev hok
    interval_cases j
    · simp [fetchWithRetry, fetchWithRetryGo, hok]
    · obtain ⟨e0, h0⟩ := hprev 0 (by norm_num)
      simp [fetchWithRetry, fetchWithRetryGo, h0, hok, List.replicate]
    · obtain ⟨e0, h0⟩ := hprev 0 (by norm_num)
      obtain ⟨e1, h1⟩ := hprev 1 (by norm_num)
      simp [fetchWithRetry, fetchWithRetryGo, h0, h1, hok, List.replicate]
  · intro hall
    obtain ⟨e0, h0⟩ := hall 0 (by norm_num)
    obtain ⟨e1, h1⟩ := hall 1 (by norm_num)
    obtain ⟨e2, h2⟩ := hall 2 (by norm_num)
    exact ⟨e2, h2, by simp [fetchWithRetry, fetchWithRetryGo, h0, h1, h2]⟩

/-- Witness for C6: a double failing twice then succeeding yields the
payload after exactly 3 attempts with two 1000 ms sleeps. -/
theorem c6_fetchWithRetry_witness :
    fetchWithRetry (fun i => if i < 2 then Except.error "boom" else Except.ok 42) =
      ⟨Except.ok 42, 3, [1000, 1000]⟩ :=
  (c6_fetchWithRetry_spec
      (fun i => if i < 2 then Except.error "boom" else Except.ok 42)).2.2.1
    2 42 (by norm_num)
    (fun i hi => ⟨"boom", by interval_cases i <;> rfl⟩) rfl

/-! ## C7 — Hijri year resolver fallback -/

/-- C7: whenever the gToH provider call fails in any way — the request
throws after retries, the response code is not 200, or the `hijri` payload
is missing — `findRamadanYear` does not raise and returns the arithmetic
approximation `Math.floor(g - 622 + (g - 622)/32.5)`. -/
theorem c7_findRamadanYear_fallback (g : Int) (resp : Except String GToHResponse)
    (h : (∃ e, resp = .error e) ∨
      ∃ r, resp = .ok r ∧
        (r.code ≠ 200 ∨ r.data = none ∨ ∃ d, r.data = some d ∧ d.hijri = none)) :
    findRamadanYear g resp = some (fallbackHijriYear g) := by
  rcases h with ⟨e, rfl⟩ | ⟨r, rfl, hbad⟩
  · rfl
  · rcases hbad with hcode | hdata | ⟨d, hdata, hhijri⟩
    · rcases hd : r.data with _ | d
      · simp [findRamadanYear, hd]
      · rcases hh : d.hijri with _ | hp
        · simp [findRamadanYear, hd, hh]
        · simp [findRamadanYear, hd, hh, hcode]
    · simp [findRamadanYear, hdata]
    · simp [findRamadanYear, hdata, hhijri]

/-- Witness for C7: with a provider double that fails deterministically,
the resolver returns the approximation, 1446 for Gregorian 2025. -/
theorem c7_findRamadanYear_witness :
    findRamadanYear 2025 (Except.error "provider unreachable") = some 1446 := by
  rw [c7_findRamadanYear_fallback 2025 (Except.error "provider unreachable")
    (Or.inl ⟨"provider unreachable", rfl⟩)]
  norm_num [fallbackHijriYear]

/-! ## C5 — cross-verifier -/

/-- C5: `verifyRamadanDates` never propagates an error: if either
underlying `getRamadanCalendar` call throws, it yields `datesMatch = false`
(with no attached results); if both succeed with an array primary, it
attaches both raw results and `datesMatch` holds exactly when the primary
day count is 29 or 30. -/
theorem c5_verifyRamadanDates_spec
    (primary secondary : Except (List Char) CalendarApiResponse) :
    (∀ e, primary = .error e →
      verifyRamadanDates primary secondary = ⟨false, none, none⟩) ∧
    (∀ e, secondary = .error e →
      verifyRamadanDates primary secondary = ⟨false, none, none⟩) ∧
    (∀ p s days, primary = .ok p → secondary = .ok s → p.data = .array days →
      verifyRamadanDates primary secondary =
        ⟨decide (days.length = 29 ∨ days.length = 30), some p, some s⟩ ∧
      ((verifyRamadanDates primary secondary).datesMatch = true ↔
        days.length = 29 ∨ days.length = 30)) := by
  refine ⟨?_, ?_, ?_⟩
  · rintro e rfl
    rfl
  · rintro e rfl
    cases primary <;> rfl
  · rintro p s days rfl rfl hdata
    constructor
    · simp [verifyRamadanDates, hdata]
    · simp [verifyRamadanDates, hdata]

/-- Witness for C5: with a 29-day array primary and a 30-day secondary,
`datesMatch` is true and both raw results are attached. -/
theorem c5_verifyRamadanDates_witness :
    verifyRamadanDates
        (Except.ok ⟨200, [], CalendarData.array (List.replicate 29
          ⟨⟨[], [], [], 3, [], []⟩, ⟨[], [], [], 9, [], [], []⟩⟩)⟩)
        (Except.ok ⟨200, [], CalendarData.array (List.replicate 30
          ⟨⟨[], [], [], 3, [], []⟩, ⟨[], [], [], 9, [], [], []⟩⟩)⟩) =
      ⟨true, some ⟨200, [], CalendarData.array (List.replicate 29
          ⟨⟨[], [], [], 3, [], []⟩, ⟨[], [], [], 9, [], [], []⟩⟩)⟩,
        some ⟨200, [], CalendarData.array (List.replicate 30
          ⟨⟨[], [], [], 3, [], []⟩, ⟨[], [], [], 9, [], [], []⟩⟩)⟩⟩ := by
  rw [((c5_verifyRamadanDates_spec _ _).2.2 _ _ _ rfl rfl rfl).1]
  rfl

/-! ## C9 — Ramadan-day enrichment -/

theorem processDaysGo_mem {fetch : CalendarDay → Except String PrayerTimes}
    {rd : RamadanDay} :
    ∀ (days : List CalendarDay) (k : Nat), rd ∈ processDaysGo fetch k days →
      ∃ j day t, days.get? j = some day ∧ fetch day = .ok t ∧
        rd = formatRamadanDay (k + j) day t := by
  intro days
  induction days with
  | nil => intro k h; cases h
  | cons d rest ih =>
    intro k h
    unfold processDaysGo at h
    rcases hf : fetch d with e | t <;> rw [hf] at h
    · obtain ⟨j, day, t, hget, hok, hrd⟩ := ih (k + 1) h
      exact ⟨j + 1, day, t, hget, hok, by rw [hrd]; ring_nf⟩
    · rcases List.mem_cons.mp h with rfl | hmem
      · exact ⟨0, d, t, rfl, hf, by rw [Nat.add_zero]⟩
      · obtain ⟨j, day, t2, hget, hok, hrd⟩ := ih (k + 1) hmem
        exact ⟨j + 1, day, t2, hget, hok, by rw [hrd]; ring_nf⟩

/-- C9: every record produced for a fetched window comes from a window
position `i` (a day whose prayer-times fetch succeeded), carries ordinal
`ramadanDay = i + 1`, is flagged first exactly when `i = 0`, and is flagged
Night of Power exactly when `i + 1 ∈ {21, 23, 25, 27, 29}`; conversely the
record built at position `i` always has those ordinal and flags. -/
theorem c9_ramadanDay_enrichment :
    (∀ (fetch : CalendarDay → Except String PrayerTimes)
        (days : List CalendarDay) (rd : RamadanDay),
      rd ∈ processDays fetch days →
      ∃ i day t, days.get? i = some day ∧ fetch day = .ok t ∧
        rd = formatRamadanDay i day t ∧
        rd.ramadanDay = i + 1 ∧
        (rd.isFirstDay = true ↔ i = 0) ∧
        (rd.isLailatulQadr = true ↔ i + 1 ∈ lailatulQadrDays)) ∧
    (∀ (i : Nat) (day : CalendarDay) (t : PrayerTimes),
      (formatRamadanDay i day t).ramadanDay = i + 1 ∧
      ((formatRamadanDay i day t).isFirstDay = true ↔ i = 0) ∧
      ((formatRamadanDay i day t).isLailatulQadr = true ↔
        i + 1 ∈ lailatulQadrDays)) := by
  have flags : ∀ (i : Nat) (day : CalendarDay) (t : PrayerTimes),
      (formatRamadanDay i day t).ramadanDay = i + 1 ∧
      ((formatRamadanDay i day t).isFirstDay = true ↔ i = 0) ∧
      ((formatRamadanDay i day t).isLailatulQadr = true ↔
        i + 1 ∈ lailatulQadrDays) := by
    intro i day t
    refine ⟨rfl, ?_, ?_⟩ <;> simp [formatRamadanDay]
  refine ⟨?_, flags⟩
  intro fetch days rd hmem
  obtain ⟨j, day, t, hget, hok, hrd⟩ := processDaysGo_mem days 0 hmem
  rw [Nat.zero_add] at hrd
  exact ⟨j, day, t, hget, hok, hrd, by rw [hrd]; exact (flags j day t).1,
    by rw [hrd]; exact (flags j day t).2.1, by rw [hrd]; exact (flags j day t).2.2⟩

/-- Witness for C9: in a two-day window whose fetches succeed, the second
record is the one built at position 1, with ordinal 2 and both flags
false. -/
theorem c9_ramadanDay_witness :
    ∃ i day t,
      ([⟨⟨[], [], [], 3, [], []⟩, ⟨[], [], [], 9, [], [], []⟩⟩,
        ⟨⟨['x'], [], [], 3, [], []⟩, ⟨[], [], [], 9, [], [], []⟩⟩] :
          List CalendarDay).get? i = some day ∧
      (fun _ : CalendarDay => (Except.ok ⟨[], [], [], [], []⟩ :
        Except String PrayerTimes)) day = .ok t ∧
      formatRamadanDay 1 ⟨⟨['x'], [], [], 3, [], []⟩, ⟨[], [], [], 9, [], [], []⟩⟩
          ⟨[], [], [], [], []⟩ = formatRamadanDay i day t ∧
      (formatRamadanDay 1 ⟨⟨['x'], [], [], 3, [], []⟩,
          ⟨[], [], [], 9, [], [], []⟩⟩ ⟨[], [], [], [], []⟩).ramadanDay = i + 1 ∧
      ((formatRamadanDay 1 ⟨⟨['x'], [], [], 3, [], []⟩,
          ⟨[], [], [], 9, [], [], []⟩⟩ ⟨[], [], [], [], []⟩).isFirstDay = true ↔ i = 0) ∧
      ((formatRamadanDay 1 ⟨⟨['x'], [], [], 3, [], []⟩,
          ⟨[], [], [], 9, [], [], []⟩⟩ ⟨[], [], [], [], []⟩).isLailatulQadr = true ↔
        i + 1 ∈ lailatulQadrDays) :=
  c9_ramadanDay_enrichment.1 _ _ _ (by decide)

/-! ## C3 / C4 / C10 — Ramadan window fetcher -/

theorem searchCandidates_append {g : Int}
    {provider : Int → Except String HijriCalResponse}
    {b : Int} {rb : HijriCalResponse} {days : List CalendarDay}
    (hb : provider b = .ok rb) (hacc : acceptedDays g rb = some days) :
    ∀ (as bs : List Int),
      (∀ y ∈ as, ∃ r, provider y = .ok r ∧ acceptedDays g r = none) →
      searchCandidates g provider (as ++ b :: bs) = (.ok days, as ++ [b]) := by
  intro as
  induction as with
  | nil =>
    intro bs _
    simp only [List.nil_append, searchCandidates, hb, hacc]
  | cons a as ih =>
    intro bs h
    obtain ⟨r, hr, hnone⟩ := h a (List.mem_cons_self a as)
    have tail := ih bs (fun y hy => h y (List.mem_cons_of_mem a hy))
    simp only [List.cons_append, searchCandidates, hr, hnone, List.append_eq, tail]

theorem searchCandidates_all_skipped {g : Int}
    {provider : Int → Except String HijriCalResponse} :
    ∀ ys : List Int,
      (∀ y ∈ ys, ∃ r, provider y = .ok r ∧ acceptedDays g r = none) →
      searchCandidates g provider ys = (.ok [], ys) := by
  intro ys
  induction ys with
  | nil => intro _; rfl
  | cons y ys ih =>
    intro h
    obtain ⟨r, hr, hnone⟩ := h y (List.mem_cons_self y ys)
    have tail := ih (fun x hx => h x (List.mem_cons_of_mem y hx))
    simp only [searchCandidates, hr, hnone, tail]

/-- C3: `getRamadanCalendar` walks the candidate Hijri years
`resolved - 1, resolved, resolved + 1` in that order; every candidate whose
response is passed over contributes nothing, and the first candidate whose
200-coded array response has at least 29 matching days — structurally valid
days whose Gregorian year string equals the requested year in decimal —
is accepted: exactly its matching days are returned and no later candidate
is queried. -/
theorem c3_getRamadanCalendar_search (g hijriYear : Int)
    (provider : Int → Except String HijriCalResponse)
    (as : List Int) (b : Int) (bs : List Int)
    (rb : HijriCalResponse) (raws : List RawCalendarDay)
    (horder : candidateYears hijriYear = as ++ b :: bs)
    (hskip : ∀ y ∈ as, ∃ r, provider y = .ok r ∧ acceptedDays g r = none)
    (hb : provider b = .ok rb)
    (hcode : rb.code = 200) (hdata : rb.data = some raws)
    (hlen : 29 ≤ (matchingDaysOf g raws).length) :
    getRamadanCalendarT g hijriYear provider =
      (.ok (matchingDaysOf g raws), as ++ [b]) := by
  have hacc : acceptedDays g rb = some (matchingDaysOf g raws) := by
    unfold acceptedDays
    rw [hdata]
    simp [hcode, hlen]
  have hsearch := searchCandidates_append hb hacc as bs hskip
  unfold getRamadanCalendarT getRamadanCalendarTry
  rw [horder, hsearch]
  have hne : matchingDaysOf g raws ≠ [] := by
    intro he
    rw [he] at hlen
    norm_num at hlen
  simp [hne]

/-- Witness for C3: the first candidate (1445) answers with an empty
window and is passed over; candidate 1446 answers with 30 structurally
valid days for Gregorian 2025 and is accepted; candidate 1447 is never
queried. -/
theorem c3_getRamadanCalendar_witness :
    getRamadanCalendarT 2025 1446
        (fun y =>
          if y = 1446 then
            Except.ok ⟨200, some (List.replicate 30
              ⟨some ⟨"15-03-2025".toList, ['1'], [], 3, [], "2025".toList⟩,
                some ⟨[], ['1'], [], 9, [], "1446".toList, []⟩⟩)⟩
          else Except.ok ⟨200, some []⟩) =
      (Except.ok (List.replicate 30
        (⟨⟨"15-03-2025".toList, ['1'], [], 3, [], "2025".toList⟩,
          ⟨[], ['1'], [], 9, [], "1446".toList, []⟩⟩ : CalendarDay)),
        [1445, 1446]) := by
  rw [c3_getRamadanCalendar_search 2025 1446 _ [1445] 1446 [1447] _
    (List.replicate 30
      ⟨some ⟨"15-03-2025".toList, ['1'], [], 3, [], "2025".toList⟩,
        some ⟨[], ['1'], [], 9, [], "1446".toList, []⟩⟩)
    (by decide)
    (fun y hy => ⟨⟨200, some []⟩, by
      rcases List.mem_singleton.mp hy with rfl
      exact ⟨rfl, rfl⟩⟩)
    rfl rfl rfl (by decide)]
  rfl

/-- C4 counterexample: when every candidate yields zero matching days, the
error `getRamadanCalendar` surfaces is the generic
"Failed to fetch Ramadan calendar. Please try again later." — the same
error an unreachable provider produces — and not the descriptive
"No Ramadan days found for year 2025" message, which is swallowed by the
function's own catch-all. -/
theorem c4_error_not_distinct_counterexample :
    getRamadanCalendar 2025 1446 (fun _ => Except.ok ⟨200, some []⟩) =
      .error ramadanGenericError ∧
    getRamadanCalendar 2025 1446 (fun _ => Except.error "network unreachable") =
      .error ramadanGenericError ∧
    ramadanGenericError ≠ noRamadanDaysError 2025 := by
  refine ⟨rfl, rfl, by decide⟩

/-- C4 (amended): when every candidate is answered but yields fewer than
29 matching days, the `try` body of `getRamadanCalendar` raises the
descriptive "No Ramadan days found for year g" error after exhausting all
three candidates, but the function's own catch-all replaces it with the
same generic error that provider failures produce, so the surfaced error
is generic and not distinct. -/
theorem c4_noRamadanDays_wrapped (g hijriYear : Int)
    (provider : Int → Except String HijriCalResponse)
    (hall : ∀ y ∈ candidateYears hijriYear,
      ∃ r, provider y = .ok r ∧ acceptedDays g r = none) :
    getRamadanCalendarTry g hijriYear provider =
      (.error (noRamadanDaysError g), candidateYears hijriYear) ∧
    getRamadanCalendar g hijriYear provider = .error ramadanGenericError := by
  have hsearch := searchCandidates_all_skipped (candidateYears hijriYear) hall
  constructor
  · unfold getRamadanCalendarTry
    rw [hsearch]
    rfl
  · unfold getRamadanCalendar getRamadanCalendarT getRamadanCalendarTry
    rw [hsearch]
    rfl

/-- Witness for the amended C4: a provider double answering every
candidate with an empty window drives the try body into the descriptive
domain error and the function into the generic one. -/
theorem c4_noRamadanDays_witness :
    getRamadanCalendarTry 2025 1446 (fun _ => Except.ok ⟨200, some []⟩) =
      (.error (noRamadanDaysError 2025), [1445, 1446, 1447]) ∧
    getRamadanCalendar 2025 1446 (fun _ => Except.ok ⟨200, some []⟩) =
      .error ramadanGenericError :=
  c4_noRamadanDays_wrapped 2025 1446 _
    (fun _ _ => ⟨⟨200, some []⟩, rfl, rfl⟩)

theorem acceptedDays_spec {g : Int} {resp : HijriCalResponse}
    {d0 : List CalendarDay} (hacc : acceptedDays g resp = some d0) :
    29 ≤ d0.length ∧ ∀ d ∈ d0, d.gregorian.year = (toString g).toList := by
  rcases hdata : resp.data with _ | raws <;>
    simp only [acceptedDays, hdata] at hacc
  · cases hacc
  · by_cases hcode : resp.code = 200
    · rw [if_pos hcode] at hacc
      by_cases hlen : 29 ≤ (matchingDaysOf g raws).length
      · rw [if_pos hlen] at hacc
        injection hacc with hacc
        refine ⟨by rw [← hacc]; exact hlen, fun d hd => ?_⟩
        rw [← hacc] at hd
        have hm := List.mem_filter.mp hd
        exact of_decide_eq_true hm.2
      · rw [if_neg hlen] at hacc
        cases hacc
    · rw [if_neg hcode] at hacc
      cases hacc

theorem searchCandidates_ok_invariant {g : Int}
    {provider : Int → Except String HijriCalResponse} :
    ∀ (ys : List Int) (days : List CalendarDay) (tr : List Int),
      searchCandidates g provider ys = (.ok days, tr) →
      days = [] ∨
        (29 ≤ days.length ∧
          ∀ d ∈ days, d.gregorian.year = (toString g).toList) := by
  intro ys
  induction ys with
  | nil =>
    intro days tr h
    left
    injection h with h1 h2
    injection h1 with h1
    exact h1.symm
  | cons y ys ih =>
    intro days tr h
    unfold searchCandidates at h
    rcases hy : provider y with e | resp
    · rw [hy] at h
      simp at h
    · rw [hy] at h
      simp only at h
      rcases hacc : acceptedDays g resp with _ | d0
      · rw [hacc] at h
        simp only at h
        rcases hs : searchCandidates g provider ys with ⟨res, tr2⟩
        rw [hs] at h
        dsimp only at h
        injection h with h1 h2
        exact ih days tr2 (by rw [hs, h1])
      · rw [hacc] at h
        simp only at h
        injection h with h1 h2
        injection h1 with h1
        right
        rw [← h1]
        exact acceptedDays_spec hacc

/-- C10: whenever `getRamadanCalendar` returns without throwing, the
returned window has at least 29 Calendar Days and every returned day's
Gregorian year string equals the requested year rendered in decimal; an
empty or partial window is never returned on success. -/
theorem c10_success_window_invariant (g hijriYear : Int)
    (provider : Int → Except String HijriCalResponse)
    (days : List CalendarDay)
    (h : getRamadanCalendar g hijriYear provider = .ok days) :
    29 ≤ days.length ∧ ∀ d ∈ days, d.gregorian.year = (toString g).toList := by
  unfold getRamadanCalendar getRamadanCalendarT getRamadanCalendarTry at h
  rcases hs : searchCandidates g provider (candidateYears hijriYear)
    with ⟨res, tr⟩
  rw [hs] at h
  rcases res with e | found
  · simp at h
  · simp only at h
    by_cases hlen : found.length = 0
    · rw [if_pos hlen] at h
      simp at h
    · rw [if_neg hlen] at h
      simp only at h
      injection h with h1
      rcases searchCandidates_ok_invariant _ _ _ hs with rfl | hinv
      · exact absurd rfl hlen
      · rw [← h1]
        exact hinv

/-- Witness for C10: a successful concrete fetch returns 30 days all
labeled with Gregorian year "2025". -/
theorem c10_success_window_witness :
    29 ≤ (List.replicate 30
      (⟨⟨[], ['1'], [], 3, [], "2025".toList⟩,
        ⟨[], ['1'], [], 9, [], "1446".toList, []⟩⟩ : CalendarDay)).length ∧
    ∀ d ∈ (List.replicate 30
      (⟨⟨[], ['1'], [], 3, [], "2025".toList⟩,
        ⟨[], ['1'], [], 9, [], "1446".toList, []⟩⟩ : CalendarDay)),
      d.gregorian.year = (toString (2025 : Int)).toList :=
  c10_success_window_invariant 2025 1446
    (fun _ => Except.ok ⟨200, some (List.replicate 30
      ⟨some ⟨[], ['1'], [], 3, [], "2025".toList⟩,
        some ⟨[], ['1'], [], 9, [], "1446".toList, []⟩⟩)⟩)
    _ rfl

/-! ## C1 / C8 — time normalizer -/

theorem colon_not_ws : jsWhitespace ':' = false := rfl

theorem nonNumericChar_facts {c : Char} (h : nonNumericChar c = true) :
    c.isDigit = false ∧ jsWhitespace c = false := by
  have hmem := of_decide_eq_true h
  fin_cases hmem <;> exact ⟨rfl, rfl⟩

theorem jsNumber_of_bad {l : List Char}
    (hbad : ∃ c ∈ l, nonNumericChar c = true) : jsNumber l = none := by
  obtain ⟨c, hc, hcbad⟩ := hbad
  obtain ⟨hcd, hcw⟩ := nonNumericChar_facts hcbad
  have hmem : c ∈ jsTrim l := mem_jsTrim_of_mem hc hcw
  unfold jsNumber
  rw [if_neg (List.ne_nil_of_mem hmem)]
  rw [if_neg]
  intro hall
  rw [List.all_eq_true] at hall
  rw [hall c hmem] at hcd
  cases hcd

theorem formatTime_split {tp mer : List Char}
    (htp_space : ∀ c ∈ tp, c ≠ ' ') (hmer_space : ∀ c ∈ mer, c ≠ ' ')
    (htp_ne : tp ≠ []) (hmer_ne : mer ≠ [])
    (hnonws : ∃ c ∈ tp, jsWhitespace c = false) :
    formatTime (tp ++ ' ' :: mer) =
      match jsNumber ((jsSplit ':' tp).headD []),
          ((jsSplit ':' tp).get? 1).bind jsNumber with
      | some hours, some minutes =>
        (if jsToUpper mer = ['P', 'M'] ∧ hours ≠ 12 then pad2 (hours + 12)
         else if jsToUpper mer = ['A', 'M'] ∧ hours = 12 then pad2 0
         else pad2 hours) ++ ':' :: pad2 minutes
      | _, _ => [] := by
  obtain ⟨c, hc, hcws⟩ := hnonws
  have htrim : jsTrim (tp ++ ' ' :: mer) ≠ [] :=
    jsTrim_ne_nil (List.mem_append_left _ hc) hcws
  have hcontains : (tp ++ ' ' :: mer).contains ' ' = true :=
    contains_eq_true_of_mem (List.mem_append_right _ (List.mem_cons_self _ _))
  have hsp : jsSplit ' ' (tp ++ ' ' :: mer) = [tp, mer] := by
    rw [jsSplit_append htp_space, jsSplit_of_sepFree hmer_space]
  have hor : ¬(tp = [] ∨ mer = []) := not_or.mpr ⟨htp_ne, hmer_ne⟩
  simp only [formatTime, hsp, hcontains, Bool.not_true, Bool.and_false,
    Bool.false_eq_true, if_false, List.headD_cons, List.get?_cons_succ,
    List.get?_cons_zero, Option.getD_some]
  rw [if_neg htrim, if_neg hor]
  rcases jsNumber ((jsSplit ':' tp).headD []) with _ | hours <;>
    rcases ((jsSplit ':' tp).get? 1).bind jsNumber with _ | minutes <;>
    simp only
  by_cases hpm : jsToUpper mer = ['P', 'M'] ∧ hours ≠ 12
  · rw [if_pos hpm, if_pos hpm]
  · rw [if_neg hpm, if_neg hpm]
    by_cases ham : jsToUpper mer = ['A', 'M'] ∧ hours = 12
    · rw [if_pos ham, if_pos ham]
    · rw [if_neg ham, if_neg ham]

theorem formatTime_12h_digits {a b mer : List Char}
    (ha_ne : a ≠ []) (ha_dig : ∀ c ∈ a, c.isDigit = true)
    (hb_ne : b ≠ []) (hb_dig : ∀ c ∈ b, c.isDigit = true)
    (hmer_space : ∀ c ∈ mer, c ≠ ' ') (hmer_ne : mer ≠ []) :
    formatTime (a ++ ':' :: b ++ ' ' :: mer) =
      (if jsToUpper mer = ['P', 'M'] ∧ digitsToNat a ≠ 12 then
        pad2 (digitsToNat a + 12)
       else if jsToUpper mer = ['A', 'M'] ∧ digitsToNat a = 12 then pad2 0
       else pad2 (digitsToNat a)) ++ ':' :: pad2 (digitsToNat b) := by
  have htp_space : ∀ c ∈ a ++ ':' :: b, c ≠ ' ' := by
    intro c hc
    rcases List.mem_append.mp hc with hca | hcb
    · exact isDigit_ne_space (ha_dig c hca)
    · rcases List.mem_cons.mp hcb with rfl | hcb
      · decide
      · exact isDigit_ne_space (hb_dig c hcb)
  have hsp : jsSplit ':' (a ++ ':' :: b) = [a, b] := by
    rw [jsSplit_append (fun c hc => isDigit_ne_colon (ha_dig c hc)),
      jsSplit_of_sepFree (fun c hc => isDigit_ne_colon (hb_dig c hc))]
  have h := formatTime_split htp_space hmer_space
    (by simp) hmer_ne
    ⟨':', List.mem_append_right _ (List.mem_cons_self _ _), colon_not_ws⟩
  simp only [List.append_assoc, List.cons_append] at h ⊢
  rw [h, hsp]
  simp only [List.headD_cons, List.get?_cons_succ, List.get?_cons_zero,
    Option.some_bind, jsNumber_of_digits ha_ne ha_dig,
    jsNumber_of_digits hb_ne hb_dig]

/-- C1: the Time Normalizer on 12-hour inputs `"h:mm AM/PM"` applies the
classic 12-hour rule with zero-padded output (PM adds 12 unless the hour
is 12, AM maps hour 12 to 0); the three canonical examples hold; and the
malformed inputs — the empty string, a time part with the meridiem marker
missing after the separator, and hour/minute components containing a
character JavaScript `Number` rejects — all normalize to the empty
string. -/
theorem c1_formatTime_normalizer :
    (∀ h m : Nat, 1 ≤ h → h ≤ 12 → m ≤ 59 →
      formatTime (natRender h ++ ':' :: pad2 m ++ ' ' :: ['P', 'M']) =
        pad2 (if h = 12 then 12 else h + 12) ++ ':' :: pad2 m) ∧
    (∀ h m : Nat, 1 ≤ h → h ≤ 12 → m ≤ 59 →
      formatTime (natRender h ++ ':' :: pad2 m ++ ' ' :: ['A', 'M']) =
        pad2 (if h = 12 then 0 else h) ++ ':' :: pad2 m) ∧
    formatTime ("1:05 PM".toList) = "13:05".toList ∧
    formatTime ("12:00 AM".toList) = "00:00".toList ∧
    formatTime ("12:00 PM".toList) = "12:00".toList ∧
    formatTime [] = [] ∧
    (∀ t : List Char, (∀ c ∈ t, c ≠ ' ') → formatTime (t ++ [' ']) = []) ∧
    (∀ a b : List Char,
      (∀ c ∈ a, c ≠ ':' ∧ c ≠ ' ') → (∀ c ∈ b, c ≠ ':' ∧ c ≠ ' ') →
      b ≠ [] →
      ((∃ c ∈ a, nonNumericChar c = true) ∨ (∃ c ∈ b, nonNumericChar c = true)) →
      formatTime (a ++ ':' :: b ++ ' ' :: ['P', 'M']) = []) := by
  refine ⟨?_, ?_, by decide, by decide, by decide, rfl, ?_, ?_⟩
  · intro h m h1 h12 hm
    rw [formatTime_12h_digits (natRender_ne_nil h) (natRender_all_digit h)
      (pad2_ne_nil m) (pad2_all_digit m) (by decide) (by decide)]
    rw [digitsToNat_natRender, digitsToNat_pad2]
    by_cases h12e : h = 12
    · rw [if_neg (fun hco => hco.2 h12e),
        if_neg (fun hco => absurd hco.1 (by decide)), if_pos h12e, h12e]
    · rw [if_pos ⟨by decide, h12e⟩, if_neg h12e]
  · intro h m h1 h12 hm
    rw [formatTime_12h_digits (natRender_ne_nil h) (natRender_all_digit h)
      (pad2_ne_nil m) (pad2_all_digit m) (by decide) (by decide)]
    rw [digitsToNat_natRender, digitsToNat_pad2]
    by_cases h12e : h = 12
    · rw [if_neg (fun hco => absurd hco.1 (by decide)),
        if_pos ⟨by decide, h12e⟩, if_pos h12e]
    · rw [if_neg (fun hco => absurd hco.1 (by decide)),
        if_neg (fun hco => h12e hco.2), if_neg h12e]
  · intro t htsp
    by_cases htrim : jsTrim (t ++ [' ']) = []
    · simp only [formatTime]
      rw [if_pos htrim]
    · have hcontains : (t ++ [' ']).contains ' ' = true :=
        contains_eq_true_of_mem (List.mem_append_right _ (List.mem_cons_self _ _))
      have hsp : jsSplit ' ' (t ++ [' ']) = [t, []] := by
        rw [show (t ++ [' ']) = t ++ ' ' :: ([] : List Char) from rfl,
          jsSplit_append htsp]
        rfl
      simp only [formatTime, hsp, hcontains, Bool.not_true, Bool.and_false,
        Bool.false_eq_true, if_false, List.headD_cons, List.get?_cons_succ,
        List.get?_cons_zero, Option.getD_some]
      rw [if_neg htrim]
      simp
  · intro a b hasep hbsep hbne hbad
    have htp_space : ∀ c ∈ a ++ ':' :: b, c ≠ ' ' := by
      intro c hc
      rcases List.mem_append.mp hc with hca | hcb
      · exact (hasep c hca).2
      · rcases List.mem_cons.mp hcb with rfl | hcb
        · decide
        · exact (hbsep c hcb).2
    have h := @formatTime_split (a ++ ':' :: b) ['P', 'M'] htp_space
      (by decide) (by simp) (by decide)
      ⟨':', List.mem_append_right _ (List.mem_cons_self _ _), colon_not_ws⟩
    simp only [List.append_assoc, List.cons_append] at h ⊢
    rw [h]
    have hsp : jsSplit ':' (a ++ ':' :: b) = [a, b] := by
      rw [jsSplit_append (fun c hc => (hasep c hc).1),
        jsSplit_of_sepFree (fun c hc => (hbsep c hc).1)]
    rw [hsp]
    simp only [List.headD_cons, List.get?_cons_succ, List.get?_cons_zero,
      Option.some_bind]
    rcases hbad with hbada | hbadb
    · rw [jsNumber_of_bad hbada]
    · rw [jsNumber_of_bad hbadb]
      rcases jsNumber a with _ | hours <;> rfl

/-- Witness for C1: instantiating the quantified conjuncts — 7:05 PM
normalizes to 19:05, 12:30 AM to 00:30, a time part with a trailing
separator but no meridiem marker is rejected, and a non-numeric hour
component is rejected. -/
theorem c1_formatTime_witness :
    formatTime ("7:05 PM".toList) = "19:05".toList ∧
    formatTime ("12:30 AM".toList) = "00:30".toList ∧
    formatTime ("7:05 ".toList) = [] ∧
    formatTime ("gg:05 PM".toList) = [] := by
  refine ⟨?_, ?_, ?_, ?_⟩
  · have h := c1_formatTime_normalizer.1 7 5 (by norm_num) (by norm_num)
      (by norm_num)
    rw [show "7:05 PM".toList =
        natRender 7 ++ ':' :: pad2 5 ++ ' ' :: ['P', 'M'] from by decide] at *
    rw [h]
    decide
  · have h := c1_formatTime_normalizer.2.1 12 30 (by norm_num) (by norm_num)
      (by norm_num)
    rw [show "12:30 AM".toList =
        natRender 12 ++ ':' :: pad2 30 ++ ' ' :: ['A', 'M'] from by decide] at *
    rw [h]
    decide
  · have h := c1_formatTime_normalizer.2.2.2.2.2.2.1 ("7:05".toList) (by decide)
    rw [show "7:05 ".toList = "7:05".toList ++ [' '] from by decide]
    exact h
  · have h := c1_formatTime_normalizer.2.2.2.2.2.2.2 ['g', 'g'] "05".toList
      (by decide) (by decide) (by decide)
      (Or.inl ⟨'g', by decide, by decide⟩)
    rw [show "gg:05 PM".toList =
        ['g', 'g'] ++ ':' :: "05".toList ++ ' ' :: ['P', 'M'] from by decide]
    exact h

theorem formatTime_24h {a b : List Char}
    (ha_ne : a ≠ []) (ha_dig : ∀ c ∈ a, c.isDigit = true)
    (hb_ne : b ≠ []) (hb_dig : ∀ c ∈ b, c.isDigit = true) :
    formatTime (a ++ ':' :: b) =
      pad2 (digitsToNat a) ++ ':' :: pad2 (digitsToNat b) := by
  have htrim : jsTrim (a ++ ':' :: b) ≠ [] :=
    jsTrim_ne_nil (List.mem_append_right _ (List.mem_cons_self _ _)) colon_not_ws
  have hcol : (a ++ ':' :: b).contains ':' = true :=
    contains_eq_true_of_mem (List.mem_append_right _ (List.mem_cons_self _ _))
  have hnospace : (a ++ ':' :: b).contains ' ' = false := by
    refine contains_eq_false_of_all ?_
    intro c hc
    rcases List.mem_append.mp hc with hca | hcb
    · exact isDigit_ne_space (ha_dig c hca)
    · rcases List.mem_cons.mp hcb with rfl | hcb
      · decide
      · exact isDigit_ne_space (hb_dig c hcb)
  have hsp : jsSplit ':' (a ++ ':' :: b) = [a, b] := by
    rw [jsSplit_append (fun c hc => isDigit_ne_colon (ha_dig c hc)),
      jsSplit_of_sepFree (fun c hc => isDigit_ne_colon (hb_dig c hc))]
  simp only [formatTime, hsp, hcol, hnospace, Bool.not_false, Bool.and_self,
    if_true, List.headD_cons, List.get?_cons_succ, List.get?_cons_zero,
    Option.some_bind]
  rw [if_neg htrim]
  simp only [jsNumber_of_digits ha_ne ha_dig, jsNumber_of_digits hb_ne hb_dig]

/-- C8: normalization is idempotent on already-24-hour strings — for a
string of the form `digits ":" digits` (already 24-hour, no meridiem),
normalizing twice equals normalizing once. -/
theorem c8_formatTime_idempotent (a b : List Char)
    (ha_ne : a ≠ []) (hb_ne : b ≠ [])
    (ha_dig : ∀ c ∈ a, c.isDigit = true) (hb_dig : ∀ c ∈ b, c.isDigit = true) :
    formatTime (formatTime (a ++ ':' :: b)) = formatTime (a ++ ':' :: b) := by
  rw [formatTime_24h ha_ne ha_dig hb_ne hb_dig,
    formatTime_24h (pad2_ne_nil _) (pad2_all_digit _) (pad2_ne_nil _)
      (pad2_all_digit _),
    digitsToNat_pad2, digitsToNat_pad2]

/-- Witness for C8: normalizing "4:30" twice equals normalizing it once. -/
theorem c8_formatTime_witness :
    formatTime (formatTime (['4'] ++ ':' :: ['3', '0'])) =
      formatTime (['4'] ++ ':' :: ['3', '0']) :=
  c8_formatTime_idempotent ['4'] ['3', '0'] (by decide) (by decide)
    (by decide) (by decide)

/-! ## C2 — countdown engine -/

theorem findNext_eq (now : Int) :
    ∀ l : List (String × List Char),
      findNext now l =
        (l.filterMap fun p =>
          if p.2 ≠ [] then (timeToMsToday p.2).map fun v => (p.1, v)
          else none).find? fun p => now < p.2 := by
  intro l
  induction l with
  | nil => rfl
  | cons e rest ih =>
    rcases e with ⟨n, s⟩
    by_cases hs : s = []
    · subst hs
      simp only [findNext, List.filterMap_cons, ih]
      rfl
    · rcases ht : timeToMsToday s with _ | target
      · simp [findNext, hs, ht, ih]
      · by_cases hlt : now < target
        · simp [findNext, hs, ht, hlt]
        · simp [findNext, hs, ht, hlt, ih]

/-- The example Timing Set of the claim. -/
def c2TimingSet : PrayerTimes :=
  ⟨"04:30".toList, "12:15".toList, "15:30".toList, "18:00".toList,
    "19:30".toList⟩

/-- C2: (i) under the spec-side next-event rule — first prayer in canonical
order whose parseable non-empty time is strictly after `now`, else
tomorrow's Fajr when Fajr has a value — `updateNextPrayer` publishes
exactly that event with the decomposed remaining duration (for Timing Sets
whose Fajr entry is empty or parseable); (ii) on a non-negative remaining
duration, the decomposition is plain truncated division into whole hours,
minutes and seconds; (iii) on the claim example at 12:00:00 the next event
is Dhuhr in 0h15m0s; (iv) at any instant after 19:30:00 the next event is
tomorrow's Fajr. -/
theorem c2_updateNextPrayer_spec :
    (∀ (t : PrayerTimes) (now : Int),
      t.fajr = [] ∨ (timeToMsToday t.fajr).isSome = true →
      updateNextPrayer t now =
        (specNextEvent t now).map fun p =>
          ⟨p.1, some (decomposeMs (p.2 - now))⟩) ∧
    (∀ d : Int, 0 ≤ d →
      decomposeMs d = (d / 3600000, d % 3600000 / 60000, d % 60000 / 1000)) ∧
    updateNextPrayer c2TimingSet 43200000 = some ⟨"Dhuhr", some (0, 15, 0)⟩ ∧
    (∀ now : Int, 70200000 < now → now < 86400000 →
      updateNextPrayer c2TimingSet now =
        some ⟨"Fajr", some (decomposeMs (102600000 - now))⟩) := by
  refine ⟨?_, ?_, by decide, ?_⟩
  · intro t now hfajr
    unfold updateNextPrayer specNextEvent
    rw [findNext_eq]
    rcases hf : (parsedEntries t).find? (fun p => decide (now < p.2))
      with _ | p
    · rw [show ((prayersOf t).filterMap fun p =>
          if p.2 ≠ [] then (timeToMsToday p.2).map fun v => (p.1, v)
          else none) = parsedEntries t from rfl, hf]
      rcases hfajr with hfa | hfs
      · simp [hfa]
      · rw [Option.isSome_iff_exists] at hfs
        obtain ⟨f, hfs⟩ := hfs
        have hne : t.fajr ≠ [] := by
          intro he
          rw [he] at hfs
          cases hfs
        simp [hne, hfs]
    · rw [show ((prayersOf t).filterMap fun p =>
          if p.2 ≠ [] then (timeToMsToday p.2).map fun v => (p.1, v)
          else none) = parsedEntries t from rfl, hf]
      rfl
  · intro d hd
    unfold decomposeMs
    rw [Int.tmod_eq_emod hd (by norm_num), Int.tmod_eq_emod hd (by norm_num),
      Int.fdiv_eq_ediv _ (by norm_num), Int.fdiv_eq_ediv _ (by norm_num),
      Int.fdiv_eq_ediv _ (by norm_num)]
  · intro now h1 h2
    unfold updateNextPrayer
    rw [findNext_eq]
    rw [show ((prayersOf c2TimingSet).filterMap fun p =>
        if p.2 ≠ [] then (timeToMsToday p.2).map fun v => (p.1, v)
        else none) =
      [("Fajr", 16200000), ("Dhuhr", 44100000), ("Asr", 55800000),
        ("Maghrib", 64800000), ("Isha", 70200000)] from by decide]
    have e1 : ((now : Int) < 16200000) = False := eq_false (by omega)
    have e2 : ((now : Int) < 44100000) = False := eq_false (by omega)
    have e3 : ((now : Int) < 55800000) = False := eq_false (by omega)
    have e4 : ((now : Int) < 64800000) = False := eq_false (by omega)
    have e5 : ((now : Int) < 70200000) = False := eq_false (by omega)
    simp only [List.find?_cons, e1, e2, e3, e4, e5, decide_False]
    have hne : c2TimingSet.fajr ≠ [] := by decide
    have hms : timeToMsToday c2TimingSet.fajr = some 16200000 := by decide
    simp only [List.find?_nil]
    rw [if_pos hne, hms]
    norm_num

/-- Witness for C2: at 22:00:00 with the claim Timing Set, the next event
is tomorrow Fajr, 6h30m0s away. -/
theorem c2_updateNextPrayer_witness :
    updateNextPrayer c2TimingSet 79200000 = some ⟨"Fajr", some (6, 30, 0)⟩ := by
  rw [c2_updateNextPrayer_spec.2.2.2 79200000 (by norm_num) (by norm_num)]
  decide

end Waktu
